import Mathlib

/-!
Verification development for the `stream-client` Node-RED node
(repository `node-red-contrib-stream-client`).

The repository holds several near-duplicate variants of one file:
* `src/stream-client.js` (first variant in the file) — the primary variant,
  with `stopped` / `reconnecting` flags, a reconnect timer, and process-global
  exception handlers;
* `src/unnamed/part_001` — the documented variant with `cleanupStream`,
  validated reconnect delay and non-object header warnings;
* `src/unnamed/part_003` — the variant with exponential backoff
  (`reconnectDelay` doubling, capped at 60000 ms, reset on `response`).

Pure helpers (`buildUrl`, `buildHeaders`, the reconnect-delay computation,
the line handler) are embedded as Lean functions; the event-driven lifecycle
is embedded as an explicit step function over an environment-chosen event
trace, emitting an effect list (logs, status updates, stream opens/destroys,
timer scheduling).  External host primitives (`JSON.parse`, `parseInt`,
string `trim`, `URLSearchParams`) are modelled faithfully from their
JavaScript semantics; the HTTP library `got` is treated as the environment:
whether `got.stream` throws synchronously is an oracle parameter, and
response / line / end / error events are chosen by the trace.
-/

/-- JavaScript whitespace predicate used by `String.prototype.trim` (the
common members: space, tab, LF, VT, FF, CR, NBSP, BOM). -/
def jsIsWs (c : Char) : Bool :=
  c = ' ' || c = '\t' || c = '\n' || c = '\r' ||
  c.toNat = 11 || c.toNat = 12 || c.toNat = 160 || c.toNat = 65279

/-- Model of JavaScript `String.prototype.trim`. -/
def jsTrim (s : String) : String :=
  ⟨((s.data.dropWhile jsIsWs).reverse.dropWhile jsIsWs).reverse⟩

/-- Numeric value of a list of decimal digit characters. -/
def digitsVal (ds : List Char) : Nat :=
  ds.foldl (fun acc c => acc * 10 + (c.toNat - 48)) 0

/-- Model of JavaScript `parseInt(s, 10)`: skip leading whitespace, optional
sign, then at least one decimal digit (trailing garbage ignored).  `none`
models the result `NaN`. -/
def jsParseInt (s : String) : Option Int :=
  let cs := s.data.dropWhile jsIsWs
  let signAndRest : Int × List Char :=
    match cs with
    | '-' :: r => (-1, r)
    | '+' :: r => (1, r)
    | _ => (1, cs)
  let ds := signAndRest.2.takeWhile (fun c => c.isDigit)
  if ds = [] then none
  else some (signAndRest.1 * (digitsVal ds : Int))

/-- JSON values as produced by the JavaScript `JSON.parse` builtin (external
to the repository, modelled here).  Numeric values are kept as their source
lexeme: no claim of this development inspects numeric arithmetic. -/
inductive Json where
  | null
  | bool (b : Bool)
  | num (lexeme : String)
  | str (s : String)
  | arr (elems : List Json)
  | obj (fields : List (String × Json))
deriving Repr

/-- Skip JSON whitespace (space, tab, LF, CR — the JSON grammar's `ws`). -/
def skipWsJ : List Char → List Char
  | c :: r => if c = ' ' || c = '\t' || c = '\n' || c = '\r' then skipWsJ r else c :: r
  | [] => []

/-- Hexadecimal value of one character, `none` if not a hex digit. -/
def hexCharVal (c : Char) : Option Nat :=
  if '0' ≤ c ∧ c ≤ '9' then some (c.toNat - 48)
  else if 'A' ≤ c ∧ c ≤ 'F' then some (c.toNat - 55)
  else if 'a' ≤ c ∧ c ≤ 'f' then some (c.toNat - 87)
  else none

/-- Parse the body of a JSON string literal (after the opening quote), with
escapes.  Modelled from the `JSON.parse` builtin; a `\u` escape is mapped
through `Char.ofNat` (lone-surrogate recombination is outside the modelled
fragment — no claim depends on it).  Fuel-indexed for termination. -/
def parseJString : Nat → List Char → Option (String × List Char)
  | 0, _ => none
  | _ + 1, [] => none
  | _ + 1, '"' :: r => some ("", r)
  | fuel + 1, '\\' :: e :: r =>
    let simpleEsc : Option Char :=
      if e = '"' then some '"'
      else if e = '\\' then some '\\'
      else if e = '/' then some '/'
      else if e = 'b' then some (Char.ofNat 8)
      else if e = 'f' then some (Char.ofNat 12)
      else if e = 'n' then some '\n'
      else if e = 'r' then some '\r'
      else if e = 't' then some '\t'
      else none
    match simpleEsc with
    | some c =>
      match parseJString fuel r with
      | some (s, rest) => some (⟨c :: s.data⟩, rest)
      | none => none
    | none =>
      if e = 'u' then
        match r with
        | h1 :: h2 :: h3 :: h4 :: r' =>
          match hexCharVal h1, hexCharVal h2, hexCharVal h3, hexCharVal h4 with
          | some a, some b, some c, some d =>
            match parseJString fuel r' with
            | some (s, rest) =>
              some (⟨Char.ofNat (((a * 16 + b) * 16 + c) * 16 + d) :: s.data⟩, rest)
            | none => none
          | _, _, _, _ => none
        | _ => none
      else none
  | fuel + 1, c :: r =>
    if c.toNat < 32 then none
    else
      match parseJString fuel r with
      | some (s, rest) => some (⟨c :: s.data⟩, rest)
      | none => none

/-- Parse a JSON number, returning its lexeme.  Grammar of `JSON.parse`:
optional minus, integer part without leading zeros, optional fraction,
optional exponent. -/
def parseNumberJ (cs : List Char) : Option (String × List Char) :=
  let (sign, cs1) :=
    match cs with
    | '-' :: r => (['-'], r)
    | _ => (([] : List Char), cs)
  let intPart : Option (List Char × List Char) :=
    match cs1 with
    | '0' :: r => some (['0'], r)
    | c :: r =>
      if '1' ≤ c ∧ c ≤ '9' then
        some (c :: r.takeWhile (fun d => Char.isDigit d), r.dropWhile (fun d => Char.isDigit d))
      else none
    | [] => none
  match intPart with
  | none => none
  | some (ip, cs2) =>
    let (fp, cs3) :=
      match cs2 with
      | '.' :: r =>
        let ds := r.takeWhile (fun d => Char.isDigit d)
        if ds = [] then (([] : List Char), cs2)
        else ('.' :: ds, r.dropWhile (fun d => Char.isDigit d))
      | _ => (([] : List Char), cs2)
    -- a '.' not followed by a digit makes the whole parse fail in JSON
    match cs2, fp with
    | '.' :: _, [] => none
    | _, _ =>
      let (ep, cs4) :=
        match cs3 with
        | e :: rest =>
          if e = 'e' || e = 'E' then
            let (sgn, rest2) :=
              match rest with
              | '+' :: r2 => (['+'], r2)
              | '-' :: r2 => (['-'], r2)
              | _ => (([] : List Char), rest)
            let ds := rest2.takeWhile (fun d => Char.isDigit d)
            if ds = [] then (([] : List Char), cs3)
            else (e :: (sgn ++ ds), rest2.dropWhile (fun d => Char.isDigit d))
          else (([] : List Char), cs3)
        | [] => (([] : List Char), cs3)
      match cs3, ep with
      | e :: _, [] =>
        if e = 'e' || e = 'E' then none
        else some (⟨sign ++ ip ++ fp ++ ep⟩, cs4)
      | _, _ => some (⟨sign ++ ip ++ fp ++ ep⟩, cs4)

mutual

/-- Parse one JSON value (input is expected to start at a non-whitespace
character).  Fuel-indexed; modelled from the `JSON.parse` builtin. -/
def parseVal : Nat → List Char → Option (Json × List Char)
  | 0, _ => none
  | fuel + 1, cs =>
    match cs with
    | [] => none
    | '{' :: r => parseObjBody fuel (skipWsJ r)
    | '[' :: r => parseArrBody fuel (skipWsJ r)
    | '"' :: r =>
      match parseJString (fuel + 1) r with
      | some (s, rest) => some (Json.str s, rest)
      | none => none
    | 't' :: r =>
      if r.take 3 = ['r', 'u', 'e'] then some (Json.bool true, r.drop 3) else none
    | 'f' :: r =>
      if r.take 4 = ['a', 'l', 's', 'e'] then some (Json.bool false, r.drop 4) else none
    | 'n' :: r =>
      if r.take 3 = ['u', 'l', 'l'] then some (Json.null, r.drop 3) else none
    | _ =>
      match parseNumberJ cs with
      | some (lx, rest) => some (Json.num lx, rest)
      | none => none

/-- Parse an object body (input directly after `{` and whitespace). -/
def parseObjBody : Nat → List Char → Option (Json × List Char)
  | 0, _ => none
  | fuel + 1, cs =>
    match cs with
    | '}' :: r => some (Json.obj [], r)
    | _ => parseMembers fuel cs []

/-- Parse the members of a JSON object (at a position expecting a key). -/
def parseMembers : Nat → List Char → List (String × Json) → Option (Json × List Char)
  | 0, _, _ => none
  | fuel + 1, cs, acc =>
    match cs with
    | '"' :: r =>
      match parseJString (fuel + 1) r with
      | some (k, r1) =>
        match skipWsJ r1 with
        | ':' :: r2 =>
          match parseVal fuel (skipWsJ r2) with
          | some (v, r3) =>
            match skipWsJ r3 with
            | ',' :: r4 => parseMembers fuel (skipWsJ r4) (acc ++ [(k, v)])
            | '}' :: r4 => some (Json.obj (acc ++ [(k, v)]), r4)
            | _ => none
          | none => none
        | _ => none
      | none => none
    | _ => none

/-- Parse an array body (input directly after `[` and whitespace). -/
def parseArrBody : Nat → List Char → Option (Json × List Char)
  | 0, _ => none
  | fuel + 1, cs =>
    match cs with
    | ']' :: r => some (Json.arr [], r)
    | _ => parseElems fuel cs []

/-- Parse the elements of a JSON array (at a position expecting a value). -/
def parseElems : Nat → List Char → List Json → Option (Json × List Char)
  | 0, _, _ => none
  | fuel + 1, cs, acc =>
    match parseVal fuel cs with
    | some (v, r1) =>
      match skipWsJ r1 with
      | ',' :: r2 => parseElems fuel (skipWsJ r2) (acc ++ [v])
      | ']' :: r2 => some (Json.arr (acc ++ [v]), r2)
      | _ => none
    | none => none

end

/-- Model of the JavaScript `JSON.parse` builtin used by the repository:
`none` models the thrown `SyntaxError`. -/
def jsonParse (s : String) : Option Json :=
  let cs := skipWsJ s.data
  match parseVal (2 * s.data.length + 2) cs with
  | some (v, rest) => if skipWsJ rest = [] then some v else none
  | none => none

/-!
## Byte-level model of URL building

`src/stream-client.js` builds the request URL with JavaScript string
operations and the host `URLSearchParams` class.  `URLSearchParams`
percent-decodes and re-encodes over UTF-8 bytes, so this part of the model
works on byte strings (`JStr`, lists of byte values): a JavaScript string is
represented by its UTF-8 byte sequence.
-/

/-- A JavaScript string as its UTF-8 byte sequence. -/
abbrev JStr := List Nat

/-- All entries are genuine byte values. -/
abbrev ValidBytes (xs : JStr) : Prop := ∀ b ∈ xs, b < 256

/-- UTF-8 byte sequence of one Unicode scalar value. -/
def utf8Bytes (c : Char) : List Nat :=
  let n := c.toNat
  if n < 128 then [n]
  else if n < 2048 then [192 + n / 64, 128 + n % 64]
  else if n < 65536 then [224 + n / 4096, 128 + (n / 64) % 64, 128 + n % 64]
  else [240 + n / 262144, 128 + (n / 4096) % 64, 128 + (n / 64) % 64, 128 + n % 64]

/-- Byte representation of a Lean string literal (for concrete inputs). -/
def strB (s : String) : JStr :=
  s.data.foldr (fun c acc => utf8Bytes c ++ acc) []

/-- ASCII whitespace bytes trimmed by JavaScript `trim` (byte-level model;
multi-byte Unicode spaces do not occur in the inputs this development
evaluates). -/
def jsIsWsB (b : Nat) : Bool :=
  b = 32 || b = 9 || b = 10 || b = 11 || b = 12 || b = 13

/-- Byte-level model of `String.prototype.trim`. -/
def jsTrimB (u : JStr) : JStr :=
  ((u.dropWhile jsIsWsB).reverse.dropWhile jsIsWsB).reverse

/-- Split a byte string on `&` (byte 38) — `URLSearchParams` segmenting. -/
def splitAmp : JStr → List JStr
  | [] => [[]]
  | b :: r =>
    if b = 38 then [] :: splitAmp r
    else
      match splitAmp r with
      | s :: ss => (b :: s) :: ss
      | [] => [[b]]

/-- Split one segment at the first `=` (byte 61): name and value.  A segment
without `=` is a name with empty value. -/
def splitEqB : JStr → JStr × JStr
  | [] => ([], [])
  | b :: r =>
    if b = 61 then ([], r)
    else
      let (n, v) := splitEqB r
      (b :: n, v)

/-- Hex value of one byte interpreted as a hex-digit character. -/
def hexVal (b : Nat) : Option Nat :=
  if 48 ≤ b ∧ b ≤ 57 then some (b - 48)
  else if 65 ≤ b ∧ b ≤ 70 then some (b - 55)
  else if 97 ≤ b ∧ b ≤ 102 then some (b - 87)
  else none

/-- `application/x-www-form-urlencoded` percent-decoding: `+` becomes a
space, `%HH` becomes the byte `HH`, a malformed escape stays literal. -/
def decodeQS : JStr → JStr
  | [] => []
  | 43 :: rest => 32 :: decodeQS rest
  | 37 :: h1 :: h2 :: r2 =>
    match hexVal h1, hexVal h2 with
    | some x, some y => (x * 16 + y) :: decodeQS r2
    | _, _ => 37 :: decodeQS (h1 :: h2 :: r2)
  | b :: rest => b :: decodeQS rest

/-- Uppercase hex-digit byte of a value below 16. -/
def hexDig (n : Nat) : Nat := if n < 10 then 48 + n else 55 + n

/-- Bytes kept verbatim by the `application/x-www-form-urlencoded`
serializer: `*`, `-`, `.`, `_` and ASCII alphanumerics. -/
def isUnreservedB (b : Nat) : Bool :=
  b = 42 || b = 45 || b = 46 || b = 95 ||
  (48 ≤ b && b ≤ 57) || (65 ≤ b && b ≤ 90) || (97 ≤ b && b ≤ 122)

/-- `application/x-www-form-urlencoded` encoding of one byte. -/
def encByte (b : Nat) : JStr :=
  if b = 32 then [43]
  else if isUnreservedB b then [b]
  else [37, hexDig (b / 16), hexDig (b % 16)]

/-- Form-encoding of a byte string. -/
def encBytes (xs : JStr) : JStr :=
  xs.foldr (fun b acc => encByte b ++ acc) []

/-- Serialization of one name/value pair (`URLSearchParams.toString`). -/
def serializePair (p : JStr × JStr) : JStr :=
  encBytes p.1 ++ 61 :: encBytes p.2

/-- Serialization of a parameter list, pairs joined by `&`
(`URLSearchParams.toString`). -/
def serializeQS : List (JStr × JStr) → JStr
  | [] => []
  | [p] => serializePair p
  | p :: rest => serializePair p ++ 38 :: serializeQS rest

/-- Model of the `URLSearchParams` constructor on a query string: split on
`&`, drop empty segments, split each segment at the first `=`,
percent-decode names and values. -/
def parseQS (q : JStr) : List (JStr × JStr) :=
  (splitAmp q).filterMap fun seg =>
    if seg = [] then none
    else some (decodeQS (splitEqB seg).1, decodeQS (splitEqB seg).2)

/-- The query-appending step of `buildUrl` in `src/stream-client.js`
(also `part_001`): parse the configured query with `URLSearchParams`; when
non-empty, append its serialization after `?` — or after `&` when the URL
already contains a `?` anywhere (`url.includes` checks the whole string). -/
def appendParams (url : JStr) (query : JStr) : JStr :=
  let params := parseQS query
  if params = [] then url
  else url ++ (if url.contains 63 then [38] else [63]) ++ serializeQS params

/-- `buildUrl` from `src/stream-client.js`: trim `config.url` (empty when
absent), log an error and return `null` when blank, else append the
configured query parameters.  The effect result is the logged error
message, if any. -/
def buildUrl (urlConf : Option JStr) (queryConf : Option JStr) :
    Option JStr × Option String :=
  let url := jsTrimB (urlConf.getD [])
  if url = [] then (none, some "No URL provided")
  else (some (appendParams url (queryConf.getD [])), none)

/-- The part of a URL before the first `#` (fragment delimiter). -/
def beforeHash (u : JStr) : JStr := u.takeWhile (fun b => b ≠ 35)

/-- The bytes after the first `?` of a byte string ([] when there is
none). -/
def afterQuestion : JStr → JStr
  | [] => []
  | b :: r => if b = 63 then r else afterQuestion r

/-- The query component of a URL per WHATWG URL semantics: the part after
the first `?` that precedes any `#`. -/
def queryComp (u : JStr) : JStr := afterQuestion (beforeHash u)

/-- The key multiset (as an ordered list) of a URL's query component. -/
def qKeys (u : JStr) : List JStr := (parseQS (queryComp u)).map Prod.fst

/-!
## Headers, reconnect delays, line handler
-/

/-- The token-derived part of the header mapping: `Authorization: Bearer
<token>` when `config.token` is truthy (present and non-empty). -/
def tokenHeaders (token : Option String) : List (String × Json) :=
  match token with
  | some t => if t = "" then [] else [("Authorization", Json.str ("Bearer " ++ t))]
  | none => []

/-- The own-enumerable key/value pairs `Object.assign` copies from a parsed
JSON value that passes `typeof parsed === 'object' && parsed !== null`:
object fields, or index/element pairs for an array; `none` for every other
value (which the source skips). -/
def assignPairs : Json → Option (List (String × Json))
  | Json.obj fields => some fields
  | Json.arr elems => some (elems.enum.map fun p => (toString p.1, p.2))
  | _ => none

/-- JavaScript object property update: replace in place when the key exists,
else append. -/
def setKey (h : List (String × Json)) (k : String) (v : Json) : List (String × Json) :=
  match h with
  | [] => [(k, v)]
  | (k', v') :: rest => if k' = k then (k, v) :: rest else (k', v') :: setKey rest k v

/-- `buildHeaders` from `src/stream-client.js`: start empty, add the Bearer
token, then attempt `JSON.parse` on `config.headers`; a successfully parsed
object (or array — `typeof` is `'object'`) is merged with `Object.assign`, a
non-object parse result is silently skipped, and a parse failure produces
the warning `Invalid headers JSON - skipping custom headers`.  Returns the
header mapping and the emitted warnings. -/
def buildHeaders (token : Option String) (headersConf : Option String) :
    List (String × Json) × List String :=
  let h := tokenHeaders token
  match headersConf with
  | none => (h, [])
  | some hs =>
    if hs = "" then (h, [])
    else
      match jsonParse hs with
      | some parsed =>
        match assignPairs parsed with
        | some kvs => (kvs.foldl (fun acc kv => setKey acc kv.1 kv.2) h, [])
        | none => (h, [])
      | none => (h, ["Invalid headers JSON - skipping custom headers"])

/-- `buildHeaders` from `src/unnamed/part_001`: same as the primary variant
except that a non-object parse result also emits a warning. -/
def p1BuildHeaders (token : Option String) (headersConf : Option String) :
    List (String × Json) × List String :=
  let h := tokenHeaders token
  match headersConf with
  | none => (h, [])
  | some hs =>
    if hs = "" then (h, [])
    else
      match jsonParse hs with
      | some parsed =>
        match assignPairs parsed with
        | some kvs => (kvs.foldl (fun acc kv => setKey acc kv.1 kv.2) h, [])
        | none => (h, ["Invalid headers JSON: Must be an object. Skipping extra headers."])
      | none => (h, ["Invalid headers JSON format. Skipping extra headers."])

/-- The reconnect delay of `safeReconnect` in `src/stream-client.js`:
`parseInt(config.reconnectDelay || '5000', 10)`.  An absent or empty
configured value falls back to the string `'5000'`; `none` models `NaN`
(which `setTimeout` treats as no delay). -/
def scDelay (reconnectDelay : Option String) : Option Int :=
  jsParseInt (match reconnectDelay with
    | none => "5000"
    | some s => if s = "" then "5000" else s)

/-- The raw `parseInt(config.reconnectDelay, 10)` of `src/unnamed/part_001`
(`parseInt(undefined, 10)` is `NaN`). -/
def p1DelayRaw (reconnectDelay : Option String) : Option Int :=
  reconnectDelay.bind jsParseInt

/-- The validated reconnect delay of `reconnect` in `src/unnamed/part_001`:
`NaN` or a value below 1000 falls back to 5000. -/
def p1Delay (reconnectDelay : Option String) : Int :=
  match p1DelayRaw reconnectDelay with
  | some d => if d < 1000 then 5000 else d
  | none => 5000

/-!
## Event-driven lifecycle model of `src/stream-client.js`

The node's mutable closure state becomes an explicit record; each JavaScript
event handler becomes one case of a step function from an event to a new
state plus a list of emitted effects.  Events are chosen by the environment
(the network / the host runtime); effects record everything the node does to
the outside: log calls, status updates, record emission, `got.stream`
invocations, stream destruction, timer scheduling, process-handler
registration.
-/

/-- Node configuration (`config` in the source).  URL and query are byte
strings (see the URL section); the other fields are ordinary strings. -/
structure Config where
  url : Option JStr
  query : Option JStr
  token : Option String
  headers : Option String
  reconnectDelay : Option String
  debug : Bool

/-- Observable effects of the node. -/
inductive Effect where
  | errorLog (msg : String)
  | warnLog (msg : String)
  | logMsg (msg : String)
  | emit (payload : Json)
  | statusSet (text : String)
  | openStream (url : JStr)
  | destroyStream
  | closeRl
  | scheduleTimer (delayMs : Option Int)
  | clearTimer
  | registerProcessHandler (event : String)
  | removeProcessHandler (event : String)

/-- Mutable closure state of `StreamClientNode` in `src/stream-client.js`:
`stopped`, `reconnecting`, the pending reconnect timer, whether `stream` /
`rl` are set, plus instrumentation counters for opened and destroyed
transports. -/
structure SCState where
  stopped : Bool
  reconnecting : Bool
  timerPending : Bool
  timerEverSet : Bool
  streamSet : Bool
  rlSet : Bool
  opens : Nat
  destroys : Nat
deriving Repr, DecidableEq

/-- Initial closure state. -/
def initState : SCState :=
  { stopped := false, reconnecting := false, timerPending := false,
    timerEverSet := false, streamSet := false, rlSet := false,
    opens := 0, destroys := 0 }

/-- `safeReconnect` from `src/stream-client.js`: a no-op when stopped or
already reconnecting, else schedule the reconnect timer with
`parseInt(config.reconnectDelay || '5000', 10)` milliseconds. -/
def safeReconnect (cfg : Config) (s : SCState) : SCState × List Effect :=
  if s.stopped || s.reconnecting then (s, [])
  else
    ({ s with reconnecting := true, timerPending := true, timerEverSet := true },
      (if cfg.debug then [Effect.logMsg "Reconnecting in (delay)ms"] else []) ++
        [Effect.scheduleTimer (scDelay cfg.reconnectDelay)])

/-- The `rl.on('line')` handler from `src/stream-client.js`: discard lines
that are blank after `trim`, else `JSON.parse` the line — on success emit
the payload and set the `connected` status, on failure warn with the full
offending line. -/
def onLine (line : String) : List Effect :=
  if jsTrim line = "" then []
  else
    match jsonParse line with
    | some data => [Effect.emit data, Effect.statusSet "connected"]
    | none => [Effect.warnLog ("Invalid JSON from stream: " ++ line)]

/-- All effects of processing a sequence of decoded lines in one attempt. -/
def processLines (lines : List String) : List Effect :=
  (lines.map onLine).flatten

/-- `connect` from `src/stream-client.js`: return when stopped; build the
URL (returning after the logged error when it is blank); build headers; set
the `connecting` status; call `got.stream` — the oracle `gotThrow` says
whether that call throws synchronously (e.g. an invalid URL), in which case
the catch block logs and calls `safeReconnect`. -/
def connect (cfg : Config) (gotThrow : JStr → Option String) (s : SCState) :
    SCState × List Effect :=
  if s.stopped then (s, [])
  else
    match buildUrl cfg.url cfg.query with
    | (none, err) => (s, (err.map Effect.errorLog).toList)
    | (some url, _) =>
      let hdrs := buildHeaders cfg.token cfg.headers
      let pre := hdrs.2.map Effect.warnLog ++ [Effect.statusSet "connecting"] ++
        (if cfg.debug then [Effect.logMsg "Connecting to: (url)", Effect.logMsg "Headers: (headers)"] else [])
      match gotThrow url with
      | none =>
        ({ s with streamSet := true, rlSet := true, opens := s.opens + 1 },
          pre ++ [Effect.openStream url])
      | some msg =>
        ((safeReconnect cfg s).1, pre ++ [Effect.statusSet "failed to connect",
          Effect.errorLog ("Failed to start stream: " ++ msg)] ++ (safeReconnect cfg s).2)

/-- External events delivered to the node by the runtime: the reconnect
timer firing, the `got` stream's `response` / `request error` / `response
error` / `error` / `end` events, one decoded line from the readline
interface, and Node-RED closing the node. -/
inductive SEvent where
  | timerFire
  | response (status : Nat) (statusMessage : String)
  | requestError (msg : String)
  | responseError (msg : String)
  | streamError (msg : String)
  | line (l : String)
  | streamEnd
  | close

/-- One step of the node: dispatch an event to the corresponding handler of
`src/stream-client.js`. -/
def step (cfg : Config) (gotThrow : JStr → Option String) (s : SCState) :
    SEvent → SCState × List Effect
  | SEvent.timerFire =>
    if s.timerPending then
      connect cfg gotThrow { s with timerPending := false, reconnecting := false }
    else (s, [])
  | SEvent.response status statusMessage =>
    (s, if 400 ≤ status then
      [Effect.errorLog ("Stream HTTP error: " ++ toString status ++ " " ++ statusMessage)]
    else [])
  | SEvent.requestError msg =>
    ((safeReconnect cfg s).1, [Effect.errorLog ("Request error: " ++ msg)] ++ (safeReconnect cfg s).2)
  | SEvent.responseError msg =>
    ((safeReconnect cfg s).1, [Effect.errorLog ("Response error: " ++ msg)] ++ (safeReconnect cfg s).2)
  | SEvent.streamError msg =>
    ((safeReconnect cfg s).1,
      [Effect.statusSet "error", Effect.errorLog ("Stream error: " ++ msg)] ++ (safeReconnect cfg s).2)
  | SEvent.line l => (s, onLine l)
  | SEvent.streamEnd =>
    ((safeReconnect cfg s).1, [Effect.statusSet "disconnected"] ++ (safeReconnect cfg s).2)
  | SEvent.close =>
    ({ s with stopped := true, timerPending := false, destroys := (if s.streamSet then s.destroys + 1 else s.destroys) },
      (if s.timerEverSet then [Effect.clearTimer] else []) ++
        (if s.rlSet then [Effect.closeRl] else []) ++
        (if s.streamSet then [Effect.destroyStream] else []))

/-- Run the node from a state through a list of events, collecting all
effects in order. -/
def runFrom (cfg : Config) (gotThrow : JStr → Option String) :
    SCState → List SEvent → SCState × List Effect
  | s, [] => (s, [])
  | s, e :: es =>
    ((runFrom cfg gotThrow (step cfg gotThrow s e).1 es).1,
      (step cfg gotThrow s e).2 ++ (runFrom cfg gotThrow (step cfg gotThrow s e).1 es).2)

/-- The events that signal a failed or terminated connection attempt in
`src/stream-client.js`: request / response / stream errors and the stream
ending. -/
def isFailureEvent : SEvent → Bool
  | SEvent.requestError _ => true
  | SEvent.responseError _ => true
  | SEvent.streamError _ => true
  | SEvent.streamEnd => true
  | _ => false

/-- Node construction (`StreamClientNode`): register the process-global
`uncaughtException` and `unhandledRejection` handlers, then call
`connect()`. -/
def nodeInit (cfg : Config) (gotThrow : JStr → Option String) : SCState × List Effect :=
  ((connect cfg gotThrow initState).1,
    [Effect.registerProcessHandler "uncaughtException",
      Effect.registerProcessHandler "unhandledRejection"] ++ (connect cfg gotThrow initState).2)

/-- The registered `uncaughtException` handler: warns only when the debug
flag is on, otherwise swallows the exception silently. -/
def onUncaughtException (debug : Bool) (msg : String) : List Effect :=
  if debug then [Effect.warnLog ("Uncaught exception: " ++ msg)] else []

/-- The registered `unhandledRejection` handler: warns only when the debug
flag is on, otherwise swallows the rejection silently. -/
def onUnhandledRejection (debug : Bool) (reason : String) : List Effect :=
  if debug then [Effect.warnLog ("Unhandled rejection: " ++ reason)] else []

/-- Is this an `openStream` effect? -/
def isOpenEff : Effect → Bool
  | Effect.openStream _ => true
  | _ => false

/-- Is this a `destroyStream` effect? -/
def isDestroyEff : Effect → Bool
  | Effect.destroyStream => true
  | _ => false

/-- Is this an `errorLog` effect? -/
def isErrEff : Effect → Bool
  | Effect.errorLog _ => true
  | _ => false

/-- Is this a `warnLog` effect? -/
def isWarnEff : Effect → Bool
  | Effect.warnLog _ => true
  | _ => false

/-- Is this an `emit` effect? -/
def isEmitEff : Effect → Bool
  | Effect.emit _ => true
  | _ => false

/-- Is this a `scheduleTimer` effect? -/
def isSchedEff : Effect → Bool
  | Effect.scheduleTimer _ => true
  | _ => false

/-- Is this a `removeProcessHandler` effect? -/
def isRemoveEff : Effect → Bool
  | Effect.removeProcessHandler _ => true
  | _ => false

/-- Number of `openStream` effects (network connection attempts). -/
def openCount (l : List Effect) : Nat := l.countP isOpenEff

/-- Number of `destroyStream` effects. -/
def destroyCount (l : List Effect) : Nat := l.countP isDestroyEff

/-- Number of `errorLog` effects. -/
def errCount (l : List Effect) : Nat := l.countP isErrEff

/-- Number of `warnLog` effects. -/
def warnCount (l : List Effect) : Nat := l.countP isWarnEff

/-- Number of `emit` effects (records handed to the consumer). -/
def emitCount (l : List Effect) : Nat := l.countP isEmitEff

/-- Number of `scheduleTimer` effects (scheduled reconnects). -/
def schedCount (l : List Effect) : Nat := l.countP isSchedEff

/-- Number of `removeProcessHandler` effects. -/
def removeCount (l : List Effect) : Nat := l.countP isRemoveEff

/-- The delays of all `scheduleTimer` effects, in order. -/
def schedDelays (l : List Effect) : List (Option Int) :=
  l.filterMap fun e =>
    match e with
    | Effect.scheduleTimer d => some d
    | _ => none

/-!
## `src/unnamed/part_001`: cleanup before connect, validated reconnect

Only the lifecycle pieces that the claims compare against the primary
variant are embedded: `cleanupStream`, `reconnect` and the effect order of
`connect`.
-/

/-- `cleanupStream` from `src/unnamed/part_001`: close the readline
interface, destroy the stream, clear any pending reconnect timeout (each
only when set), nulling the fields. -/
def cleanupStream (s : SCState) : SCState × List Effect :=
  let a : SCState × List Effect :=
    if s.rlSet then ({ s with rlSet := false }, [Effect.closeRl]) else (s, [])
  let b : SCState × List Effect :=
    if a.1.streamSet then
      ({ a.1 with streamSet := false, destroys := a.1.destroys + 1 }, [Effect.destroyStream])
    else (a.1, [])
  let c : SCState × List Effect :=
    if b.1.timerPending then ({ b.1 with timerPending := false }, [Effect.clearTimer])
    else (b.1, [])
  (c.1, a.2 ++ b.2 ++ c.2)

/-- `reconnect` from `src/unnamed/part_001`: return when stopped; clear any
existing timeout; validate the configured delay (`NaN` or below 1000 warns
and falls back to 5000); schedule the next `connect`. -/
def p1Reconnect (cfg : Config) (s : SCState) : SCState × List Effect :=
  if s.stopped then (s, [Effect.statusSet "stopped"])
  else
    let a : SCState × List Effect :=
      if s.timerPending then ({ s with timerPending := false }, [Effect.clearTimer])
      else (s, [])
    let invalid : Bool :=
      match p1DelayRaw cfg.reconnectDelay with
      | none => true
      | some d => decide (d < 1000)
    ({ a.1 with timerPending := true, timerEverSet := true },
      a.2 ++
        (if invalid then [Effect.warnLog "Invalid or too short reconnectDelay. Using default of 5000ms."] else []) ++
        [Effect.statusSet "reconnecting in (delay)s"] ++
        (if cfg.debug then [Effect.logMsg "Scheduling reconnect in (delay)ms."] else []) ++
        [Effect.scheduleTimer (some (p1Delay cfg.reconnectDelay))])

/-- `connect` from `src/unnamed/part_001`: return (with a `stopped` status)
when stopped; otherwise `cleanupStream()` first, then build URL and headers,
set the connecting status and call `got.stream` — on a synchronous throw,
log and fall through to `reconnect`. -/
def p1Connect (cfg : Config) (gotThrow : JStr → Option String) (s : SCState) :
    SCState × List Effect :=
  if s.stopped then (s, [Effect.statusSet "stopped"])
  else
    let url := appendParams (jsTrimB (cfg.url.getD [])) (cfg.query.getD [])
    let hdrs := p1BuildHeaders cfg.token cfg.headers
    let pre := (cleanupStream s).2 ++ hdrs.2.map Effect.warnLog ++ [Effect.statusSet "connecting..."] ++
      (if cfg.debug then [Effect.logMsg "Attempting to connect to: (url)", Effect.logMsg "Headers used: (headers)"] else [])
    match gotThrow url with
    | none =>
      ({ (cleanupStream s).1 with streamSet := true, rlSet := true, opens := (cleanupStream s).1.opens + 1 },
        pre ++ [Effect.openStream url])
    | some msg =>
      ((p1Reconnect cfg (cleanupStream s).1).1,
        pre ++ [Effect.statusSet "setup error",
          Effect.errorLog ("Failed to initialize stream: " ++ msg),
          Effect.warnLog ("Stream setup failed. Attempting to reconnect: " ++ msg)] ++
          (p1Reconnect cfg (cleanupStream s).1).2)

/-- `true` when no `openStream` effect occurs before the first
`destroyStream` effect. -/
def destroyPrecedesOpen : List Effect → Bool
  | [] => true
  | Effect.openStream _ :: _ => false
  | Effect.destroyStream :: _ => true
  | _ :: r => destroyPrecedesOpen r

/-!
## `src/unnamed/part_003`: exponential backoff

State of the backoff variant: the current `reconnectDelay` (starting at
2000 ms, capped at 60000 ms), the number of records delivered by the current
attempt, and the list of delays actually used for scheduling, in order.
-/

/-- Backoff state of `src/unnamed/part_003`. -/
structure P3State where
  delay : Nat
  attemptRecords : Nat
  scheduled : List Nat
deriving Repr, DecidableEq

/-- Events of the backoff variant: a failure (`error` or `end` handler
calling `scheduleReconnect`), the reconnect timer firing (`startStream`
runs, then the delay doubles capped at 60000), a `response` (which resets
the delay to 2000), and a data chunk delivering `n` records. -/
inductive P3Event where
  | fail
  | fire
  | response
  | data (records : Nat)
deriving DecidableEq

/-- One step of the backoff variant, from `src/unnamed/part_003`:
`scheduleReconnect` schedules with the current delay; the timeout callback
runs `startStream()` and then sets
`reconnectDelay = Math.min(reconnectDelay * 2, 60000)`; the `response`
handler sets `reconnectDelay = 2000`. -/
def p3Step (s : P3State) : P3Event → P3State
  | P3Event.fail => { s with scheduled := s.scheduled ++ [s.delay] }
  | P3Event.fire => { s with delay := min (s.delay * 2) 60000, attemptRecords := 0 }
  | P3Event.response => { s with delay := 2000 }
  | P3Event.data n => { s with attemptRecords := s.attemptRecords + n }

/-- Initial backoff state (`reconnectDelay = 2000`). -/
def p3Init : P3State := { delay := 2000, attemptRecords := 0, scheduled := [] }

/-- Run the backoff variant from a state. -/
def p3RunFrom (s : P3State) (tr : List P3Event) : P3State := tr.foldl p3Step s

/-- Run the backoff variant from its initial state. -/
def p3Run (tr : List P3Event) : P3State := p3RunFrom p3Init tr

/-!
## Lemmas about the lifecycle model
-/

theorem onLine_no_control (l : String) :
    openCount (onLine l) = 0 ∧ schedCount (onLine l) = 0 ∧
      destroyCount (onLine l) = 0 ∧ removeCount (onLine l) = 0 := by
  unfold onLine
  split
  · simp [openCount, schedCount, destroyCount, removeCount]
  · split <;>
      simp [openCount, schedCount, destroyCount, removeCount,
        isOpenEff, isSchedEff, isDestroyEff, isRemoveEff]

theorem safeReconnect_effects (cfg : Config) (s : SCState) :
    openCount (safeReconnect cfg s).2 = 0 ∧ destroyCount (safeReconnect cfg s).2 = 0 ∧
      errCount (safeReconnect cfg s).2 = 0 ∧ removeCount (safeReconnect cfg s).2 = 0 := by
  unfold safeReconnect
  split
  · simp [openCount, destroyCount, errCount, removeCount]
  · cases cfg.debug <;>
      simp [openCount, destroyCount, errCount, removeCount,
        isOpenEff, isDestroyEff, isErrEff, isRemoveEff]

theorem safeReconnect_stopped (cfg : Config) (s : SCState) (h : s.stopped = true) :
    safeReconnect cfg s = (s, []) := by
  unfold safeReconnect
  simp [h]

theorem connect_stopped (cfg : Config) (gotThrow : JStr → Option String) (s : SCState)
    (h : s.stopped = true) : connect cfg gotThrow s = (s, []) := by
  unfold connect
  simp [h]

theorem step_stopped_sticky (cfg : Config) (gotThrow : JStr → Option String)
    (s : SCState) (e : SEvent) (h : s.stopped = true) :
    (step cfg gotThrow s e).1.stopped = true ∧ openCount (step cfg gotThrow s e).2 = 0 := by
  cases e with
  | timerFire =>
    simp only [step]
    split
    · rw [connect_stopped cfg gotThrow _ (by simpa using h)]
      simp [h, openCount]
    · simp [h, openCount]
  | response st m => simp [step, h, openCount, isOpenEff]
  | requestError m =>
    rw [step, safeReconnect_stopped cfg s h]
    simp [h, openCount, isOpenEff]
  | responseError m =>
    rw [step, safeReconnect_stopped cfg s h]
    simp [h, openCount, isOpenEff]
  | streamError m =>
    rw [step, safeReconnect_stopped cfg s h]
    simp [h, openCount, isOpenEff]
  | line l =>
    refine ⟨by simpa [step] using h, ?_⟩
    simpa [step] using (onLine_no_control l).1
  | streamEnd =>
    rw [step, safeReconnect_stopped cfg s h]
    simp [h, openCount, isOpenEff]
  | close =>
    refine ⟨by simp [step], ?_⟩
    simp only [step]
    cases hts : s.timerEverSet <;> cases hrl : s.rlSet <;> cases hst : s.streamSet <;>
      simp [hts, hrl, hst, openCount, isOpenEff]

theorem runFrom_stopped (cfg : Config) (gotThrow : JStr → Option String) :
    ∀ (es : List SEvent) (s : SCState), s.stopped = true →
      (runFrom cfg gotThrow s es).1.stopped = true ∧
        openCount (runFrom cfg gotThrow s es).2 = 0 := by
  intro es
  induction es with
  | nil => intro s h; simpa [runFrom, openCount] using h
  | cons e es ih =>
    intro s h
    obtain ⟨hs, ho⟩ := step_stopped_sticky cfg gotThrow s e h
    obtain ⟨hs2, ho2⟩ := ih _ hs
    refine ⟨by simpa [runFrom] using hs2, ?_⟩
    simp only [runFrom, openCount, List.countP_append] at *
    omega

theorem runFrom_append_fst (cfg : Config) (gotThrow : JStr → Option String) :
    ∀ (a b : List SEvent) (s : SCState),
      (runFrom cfg gotThrow s (a ++ b)).1 = (runFrom cfg gotThrow (runFrom cfg gotThrow s a).1 b).1 := by
  intro a
  induction a with
  | nil => intro b s; simp [runFrom]
  | cons e es ih => intro b s; simp [runFrom, ih]

theorem step_close_state (cfg : Config) (gotThrow : JStr → Option String) (s : SCState) :
    (step cfg gotThrow s SEvent.close).1.stopped = true ∧
      (step cfg gotThrow s SEvent.close).1.timerPending = false := by
  simp [step]

theorem removeCount_connect (cfg : Config) (gotThrow : JStr → Option String) (s : SCState) :
    removeCount (connect cfg gotThrow s).2 = 0 := by
  have hsr := (safeReconnect_effects cfg s).2.2.2
  unfold connect
  split
  · simp [removeCount]
  · split
    · rename_i err heq
      cases err <;> simp [removeCount, isRemoveEff]
    · rename_i url snd heq
      cases hg : gotThrow url with
      | none =>
        cases cfg.debug <;>
          simp [hg, removeCount, isRemoveEff, List.countP_append, List.countP_map]
      | some m =>
        cases cfg.debug <;>
          simp only [hg, removeCount, List.countP_append, List.countP_cons, List.countP_map] at * <;>
          simp [isRemoveEff, hsr]

/-- C4 (confirmed): after the `close` event sets the `stopped` flag, the
pending reconnect timer is cancelled (`timerPending` is cleared — and even a
spuriously firing timer is inert, since `connect` checks `stopped` first),
and no later event of any subsequent run can produce an `openStream`
effect: no connection attempt or network operation ever happens after
shutdown. -/
theorem C4_no_connect_after_close (cfg : Config) (gotThrow : JStr → Option String)
    (pre post : List SEvent) :
    (runFrom cfg gotThrow (nodeInit cfg gotThrow).1 (pre ++ [SEvent.close])).1.stopped = true ∧
    (runFrom cfg gotThrow (nodeInit cfg gotThrow).1 (pre ++ [SEvent.close])).1.timerPending = false ∧
    openCount (runFrom cfg gotThrow
      (runFrom cfg gotThrow (nodeInit cfg gotThrow).1 (pre ++ [SEvent.close])).1 post).2 = 0 := by
  have hc1 : (runFrom cfg gotThrow (nodeInit cfg gotThrow).1 (pre ++ [SEvent.close])).1.stopped = true := by
    rw [runFrom_append_fst]
    simp [runFrom, step]
  have hc2 : (runFrom cfg gotThrow (nodeInit cfg gotThrow).1 (pre ++ [SEvent.close])).1.timerPending = false := by
    rw [runFrom_append_fst]
    simp [runFrom, step]
  exact ⟨hc1, hc2, (runFrom_stopped cfg gotThrow post _ hc1).2⟩

/-- C10 (confirmed): constructing the node registers process-global
`uncaughtException` and `unhandledRejection` handlers; with the debug flag
off each handler swallows its exception or rejection silently (no effect at
all — and since `process.on` is global, this applies to every fault in the
host process, related to this node or not); and no event handler — in
particular not the `close` handler — ever removes a process handler. -/
theorem C10_global_handlers (cfg : Config) (gotThrow : JStr → Option String)
    (s : SCState) (e : SEvent) (msg : String) :
    Effect.registerProcessHandler "uncaughtException" ∈ (nodeInit cfg gotThrow).2 ∧
    Effect.registerProcessHandler "unhandledRejection" ∈ (nodeInit cfg gotThrow).2 ∧
    onUncaughtException false msg = [] ∧
    onUnhandledRejection false msg = [] ∧
    removeCount (step cfg gotThrow s e).2 = 0 := by
  refine ⟨by simp [nodeInit], by simp [nodeInit], by simp [onUncaughtException],
    by simp [onUnhandledRejection], ?_⟩
  cases e with
  | timerFire =>
    simp only [step]
    split
    · exact removeCount_connect cfg gotThrow _
    · simp [removeCount]
  | response st m => simp [step, removeCount, isRemoveEff]
  | requestError m =>
    rw [step]
    have := (safeReconnect_effects cfg s).2.2.2
    simp only [removeCount, List.countP_append, List.countP_cons] at *
    simp [isRemoveEff, this]
  | responseError m =>
    rw [step]
    have := (safeReconnect_effects cfg s).2.2.2
    simp only [removeCount, List.countP_append, List.countP_cons] at *
    simp [isRemoveEff, this]
  | streamError m =>
    rw [step]
    have := (safeReconnect_effects cfg s).2.2.2
    simp only [removeCount, List.countP_append, List.countP_cons] at *
    simp [isRemoveEff, this]
  | line l =>
    simpa [step] using (onLine_no_control l).2.2.2
  | streamEnd =>
    rw [step]
    have := (safeReconnect_effects cfg s).2.2.2
    simp only [removeCount, List.countP_append, List.countP_cons] at *
    simp [isRemoveEff, this]
  | close =>
    simp only [step]
    cases hts : s.timerEverSet <;> cases hrl : s.rlSet <;> cases hst : s.streamSet <;>
      simp [hts, hrl, hst, removeCount, isRemoveEff]

theorem destroyCount_connect (cfg : Config) (gotThrow : JStr → Option String) (s : SCState) :
    destroyCount (connect cfg gotThrow s).2 = 0 := by
  have hsr := (safeReconnect_effects cfg s).2.1
  unfold connect
  split
  · simp [destroyCount]
  · split
    · rename_i err heq
      cases err <;> simp [destroyCount, isDestroyEff]
    · rename_i url snd heq
      cases hg : gotThrow url with
      | none =>
        cases cfg.debug <;>
          simp [hg, destroyCount, isDestroyEff, List.countP_append, List.countP_map]
      | some m =>
        cases cfg.debug <;>
          simp only [hg, destroyCount, List.countP_append, List.countP_cons, List.countP_map] at * <;>
          simp [isDestroyEff, hsr]

/-- C3 counterexample: with a missing URL (`config.url` absent, so the
trimmed URL is blank), node construction logs `No URL provided` and
schedules nothing: `timerPending` stays false, and any number of subsequent
timer events produces no connection attempt — the retry loop has stopped
without any shutdown request, contradicting the claim that a missing or
malformed URL is never fatal to the retry loop. -/
theorem C3_counterexample :
    (nodeInit ⟨none, none, none, none, none, false⟩ (fun _ => none)).2 =
      [Effect.registerProcessHandler "uncaughtException",
        Effect.registerProcessHandler "unhandledRejection",
        Effect.errorLog "No URL provided"] ∧
    schedCount (nodeInit ⟨none, none, none, none, none, false⟩ (fun _ => none)).2 = 0 ∧
    (nodeInit ⟨none, none, none, none, none, false⟩ (fun _ => none)).1.timerPending = false ∧
    openCount (runFrom ⟨none, none, none, none, none, false⟩ (fun _ => none)
      (nodeInit ⟨none, none, none, none, none, false⟩ (fun _ => none)).1
      [SEvent.timerFire, SEvent.timerFire, SEvent.timerFire]).2 = 0 := by
  exact ⟨rfl, rfl, rfl, rfl⟩

/-- C3 (corrected): every failure event is handled — it logs an error
and/or leaves a reconnect scheduled (or a reconnect was already pending /
the node is stopped); a synchronous `got.stream` throw (e.g. a malformed
URL) logs an error and schedules exactly one reconnect; but a blank or
missing URL logs an error WITHOUT scheduling any reconnect, so the retry
loop halts there — the code does stop retrying in that one case without
any shutdown. -/
theorem C3_failures_logged_or_rescheduled (cfg : Config)
    (gotThrow : JStr → Option String) (s : SCState) (e : SEvent) :
    (isFailureEvent e = true →
      1 ≤ errCount (step cfg gotThrow s e).2 ∨ 1 ≤ schedCount (step cfg gotThrow s e).2 ∨
        s.reconnecting = true ∨ s.stopped = true) ∧
    (jsTrimB (cfg.url.getD []) = [] →
      schedCount (connect cfg gotThrow s).2 = 0 ∧
        (s.stopped = false → errCount (connect cfg gotThrow s).2 = 1)) ∧
    (∀ m, s.stopped = false → s.reconnecting = false →
      gotThrow (appendParams (jsTrimB (cfg.url.getD [])) (cfg.query.getD [])) = some m →
      jsTrimB (cfg.url.getD []) ≠ [] →
      1 ≤ errCount (connect cfg gotThrow s).2 ∧ schedCount (connect cfg gotThrow s).2 = 1) := by
  refine ⟨?_, ?_, ?_⟩
  · intro hf
    cases e with
    | requestError m => simp [step, errCount, isErrEff]
    | responseError m => simp [step, errCount, isErrEff]
    | streamError m => simp [step, errCount, isErrEff]
    | streamEnd =>
      by_cases hs : s.stopped = true
      · exact Or.inr (Or.inr (Or.inr hs))
      · by_cases hr : s.reconnecting = true
        · exact Or.inr (Or.inr (Or.inl hr))
        · refine Or.inr (Or.inl ?_)
          rw [step]
          unfold safeReconnect
          simp only [Bool.not_eq_true] at hs hr
          cases cfg.debug <;>
            simp [hs, hr, schedCount, isSchedEff, List.countP_append]
    | timerFire => simp [isFailureEvent] at hf
    | response st m => simp [isFailureEvent] at hf
    | line l => simp [isFailureEvent] at hf
    | close => simp [isFailureEvent] at hf
  · intro hu
    unfold connect buildUrl
    by_cases hs : s.stopped = true
    · simp [hs, schedCount]
    · simp only [Bool.not_eq_true] at hs
      simp [hs, hu, schedCount, errCount, isErrEff, isSchedEff]
  · intro m hs hr hg hu
    cases hd : cfg.debug <;>
      simp [connect, buildUrl, safeReconnect, hs, hr, hu, hg, hd, errCount, schedCount,
        isErrEff, isSchedEff, List.countP_append, List.countP_cons, List.countP_map]

theorem C3_witness :
    (1 ≤ errCount (step ⟨none, none, none, none, none, false⟩ (fun _ => none)
        initState SEvent.streamEnd).2 ∨
      1 ≤ schedCount (step ⟨none, none, none, none, none, false⟩ (fun _ => none)
        initState SEvent.streamEnd).2 ∨
      initState.reconnecting = true ∨ initState.stopped = true) ∧
    schedCount (connect ⟨none, none, none, none, none, false⟩ (fun _ => none) initState).2 = 0 ∧
    errCount (connect ⟨none, none, none, none, none, false⟩ (fun _ => none) initState).2 = 1 ∧
    (1 ≤ errCount (connect ⟨some (strB "::bad::"), none, none, none, none, false⟩
        (fun _ => some "Invalid URL") initState).2 ∧
      schedCount (connect ⟨some (strB "::bad::"), none, none, none, none, false⟩
        (fun _ => some "Invalid URL") initState).2 = 1) := by
  refine ⟨?_, ?_, ?_, ?_⟩
  · exact (C3_failures_logged_or_rescheduled ⟨none, none, none, none, none, false⟩
      (fun _ => none) initState SEvent.streamEnd).1 rfl
  · exact ((C3_failures_logged_or_rescheduled ⟨none, none, none, none, none, false⟩
      (fun _ => none) initState SEvent.streamEnd).2.1 rfl).1
  · exact ((C3_failures_logged_or_rescheduled ⟨none, none, none, none, none, false⟩
      (fun _ => none) initState SEvent.streamEnd).2.1 rfl).2 rfl
  · exact (C3_failures_logged_or_rescheduled ⟨some (strB "::bad::"), none, none, none, none, false⟩
      (fun _ => some "Invalid URL") initState SEvent.streamEnd).2.2 "Invalid URL" rfl rfl rfl
      (by decide)

/-- C5 counterexample: with a valid URL, the trace "stream ends, reconnect
timer fires" makes `connect` open a second transport while the first was
never destroyed: the open counter reaches 2 with zero `destroyStream`
effects, so `open_count − close_count` (counting explicit destruction, the
release the claim requires before the next attempt) reaches 2, not 0 or
1. -/
theorem C5_counterexample :
    (runFrom ⟨some (strB "http://h/s"), none, none, none, none, false⟩ (fun _ => none)
      (nodeInit ⟨some (strB "http://h/s"), none, none, none, none, false⟩ (fun _ => none)).1
      [SEvent.streamEnd, SEvent.timerFire]).1.opens = 2 ∧
    (runFrom ⟨some (strB "http://h/s"), none, none, none, none, false⟩ (fun _ => none)
      (nodeInit ⟨some (strB "http://h/s"), none, none, none, none, false⟩ (fun _ => none)).1
      [SEvent.streamEnd, SEvent.timerFire]).1.destroys = 0 ∧
    destroyCount ((nodeInit ⟨some (strB "http://h/s"), none, none, none, none, false⟩
        (fun _ => none)).2 ++
      (runFrom ⟨some (strB "http://h/s"), none, none, none, none, false⟩ (fun _ => none)
        (nodeInit ⟨some (strB "http://h/s"), none, none, none, none, false⟩ (fun _ => none)).1
        [SEvent.streamEnd, SEvent.timerFire]).2) = 0 ∧
    openCount ((nodeInit ⟨some (strB "http://h/s"), none, none, none, none, false⟩
        (fun _ => none)).2 ++
      (runFrom ⟨some (strB "http://h/s"), none, none, none, none, false⟩ (fun _ => none)
        (nodeInit ⟨some (strB "http://h/s"), none, none, none, none, false⟩ (fun _ => none)).1
        [SEvent.streamEnd, SEvent.timerFire]).2) = 2 := by
  exact ⟨rfl, rfl, rfl, rfl⟩

/-- C5 (corrected): in `src/stream-client.js`, `connect` never destroys the
previous transport — the only `destroyStream` effect in the whole event
model is produced by the `close` handler (exactly one, when a stream is
set).  Only the `part_001` variant destroys the previous attempt before
opening the next: its `connect` runs `cleanupStream` first, so whenever a
stream is live its `destroyStream` precedes any `openStream`. -/
theorem C5_single_attempt (cfg : Config) (gotThrow : JStr → Option String) (s : SCState) :
    destroyCount (connect cfg gotThrow s).2 = 0 ∧
    destroyCount (step cfg gotThrow s SEvent.close).2 = (if s.streamSet then 1 else 0) ∧
    (s.stopped = false → s.streamSet = true →
      destroyPrecedesOpen (p1Connect cfg gotThrow s).2 = true) := by
  refine ⟨destroyCount_connect cfg gotThrow s, ?_, ?_⟩
  · simp only [step]
    cases hts : s.timerEverSet <;> cases hrl : s.rlSet <;> cases hst : s.streamSet <;>
      simp [hts, hrl, hst, destroyCount, isDestroyEff]
  · intro hstop hstream
    unfold p1Connect cleanupStream
    cases hrl : s.rlSet <;> cases hg : gotThrow (appendParams (jsTrimB (cfg.url.getD []))
        (cfg.query.getD [])) <;>
      simp [hstop, hstream, hrl, hg, destroyPrecedesOpen]

theorem C5_witness :
    destroyCount (connect ⟨some (strB "http://h/s"), none, none, none, none, false⟩
      (fun _ => none)
      { stopped := false, reconnecting := false, timerPending := false, timerEverSet := false,
        streamSet := true, rlSet := true, opens := 1, destroys := 0 }).2 = 0 ∧
    destroyPrecedesOpen (p1Connect ⟨some (strB "http://h/s"), none, none, none, none, false⟩
      (fun _ => none)
      { stopped := false, reconnecting := false, timerPending := false, timerEverSet := false,
        streamSet := true, rlSet := true, opens := 1, destroys := 0 }).2 = true := by
  refine ⟨(C5_single_attempt _ _ _).1, (C5_single_attempt _ _ _).2.2 rfl rfl⟩

/-- C1 counterexample: a response with status 304 is outside [200,300), yet
the `response` handler of `src/stream-client.js` (which tests
`statusCode >= 400`) produces no effect at all — no error event carrying
the status is surfaced, contradicting the claim's threshold. -/
theorem C1_counterexample :
    (304 < 200 ∨ 300 ≤ 304) ∧
    (step ⟨some (strB "http://h/s"), none, none, none, none, false⟩ (fun _ => none)
      { stopped := false, reconnecting := false, timerPending := false, timerEverSet := false,
        streamSet := true, rlSet := true, opens := 1, destroys := 0 }
      (SEvent.response 304 "Not Modified")).2 = [] := by
  exact ⟨Or.inr (by norm_num), rfl⟩

/-- C1 (corrected): the `response` handler surfaces an error event carrying
the status exactly when the status is ≥ 400 (so 3xx statuses outside
[200,300) produce no error event); for a 503 with no delivered body lines,
exactly one error event is produced, no record is emitted, and the
subsequent stream end schedules a reconnect at the configured constant
delay (`parseInt(config.reconnectDelay || '5000')` — the "base" delay, this
variant never grows it); and the line reader stays active regardless of the
response status, so any body line the transport does deliver is still
parsed and emitted. -/
theorem C1_http_error_handling (cfg : Config) (gotThrow : JStr → Option String)
    (s : SCState) (st : Nat) (m : String) (l : String) (d : Json)
    (hs : s.stopped = false) (hr : s.reconnecting = false) :
    ((step cfg gotThrow s (SEvent.response st m)).2 =
      if 400 ≤ st then
        [Effect.errorLog ("Stream HTTP error: " ++ toString st ++ " " ++ m)]
      else []) ∧
    (errCount (step cfg gotThrow s (SEvent.response 503 m)).2 = 1 ∧
      emitCount ((step cfg gotThrow s (SEvent.response 503 m)).2 ++
        (step cfg gotThrow (step cfg gotThrow s (SEvent.response 503 m)).1 SEvent.streamEnd).2) = 0 ∧
      schedDelays (step cfg gotThrow (step cfg gotThrow s (SEvent.response 503 m)).1
        SEvent.streamEnd).2 = [scDelay cfg.reconnectDelay]) ∧
    (jsTrim l ≠ "" → jsonParse l = some d →
      (step cfg gotThrow s (SEvent.line l)).2 = [Effect.emit d, Effect.statusSet "connected"]) := by
  refine ⟨rfl, ⟨?_, ?_, ?_⟩, ?_⟩
  · simp [step, errCount, isErrEff]
  · rw [step, step]
    unfold safeReconnect
    cases hd : cfg.debug <;>
      simp [hs, hr, hd, emitCount, isEmitEff, List.countP_append, List.countP_cons]
  · rw [step, step]
    unfold safeReconnect
    cases hd : cfg.debug <;> simp [hs, hr, hd, schedDelays]
  · intro h1 h2
    simp [step, onLine, h1, h2]

theorem C1_witness :
    (step ⟨some (strB "http://h/s"), none, none, none, none, false⟩ (fun _ => none)
      { stopped := false, reconnecting := false, timerPending := false, timerEverSet := false,
        streamSet := true, rlSet := true, opens := 1, destroys := 0 }
      (SEvent.response 503 "Service Unavailable")).2 =
      (if 400 ≤ 503 then
        [Effect.errorLog ("Stream HTTP error: " ++ toString 503 ++ " " ++ "Service Unavailable")]
      else []) ∧
    errCount (step ⟨some (strB "http://h/s"), none, none, none, none, false⟩ (fun _ => none)
      { stopped := false, reconnecting := false, timerPending := false, timerEverSet := false,
        streamSet := true, rlSet := true, opens := 1, destroys := 0 }
      (SEvent.response 503 "Service Unavailable")).2 = 1 ∧
    (step ⟨some (strB "http://h/s"), none, none, none, none, false⟩ (fun _ => none)
      { stopped := false, reconnecting := false, timerPending := false, timerEverSet := false,
        streamSet := true, rlSet := true, opens := 1, destroys := 0 }
      (SEvent.line "\x7b\"a\":1\x7d")).2 =
      [Effect.emit (Json.obj [("a", Json.num "1")]), Effect.statusSet "connected"] := by
  refine ⟨?_, ?_, ?_⟩
  · exact (C1_http_error_handling _ _ _ 503 "Service Unavailable" "x" Json.null rfl rfl).1
  · exact (C1_http_error_handling _ _ _ 503 "Service Unavailable" "x" Json.null rfl rfl).2.1.1
  · exact (C1_http_error_handling _ _ _ 503 "Service Unavailable" "\x7b\"a\":1\x7d"
      (Json.obj [("a", Json.num "1")]) rfl rfl).2.2 (by decide) (by rfl)

/-- C6 (confirmed): the line handler discards blank/whitespace-only lines
before the parser; a line that fails JSON decoding produces exactly one
warning carrying the full original line, with no reconnect and no other
control effect; line processing is compositional, so one malformed line
never prevents preceding or subsequent lines from being parsed and emitted;
and on Scenario B's body the handler emits exactly the two records around
exactly one decode warning, with no reconnect scheduled. -/
theorem C6_line_isolation (pre post : List String) (l : String) :
    (jsTrim l = "" → onLine l = []) ∧
    (jsTrim l ≠ "" → jsonParse l = none →
      onLine l = [Effect.warnLog ("Invalid JSON from stream: " ++ l)]) ∧
    processLines (pre ++ l :: post) = processLines pre ++ onLine l ++ processLines post ∧
    (schedCount (onLine l) = 0 ∧ openCount (onLine l) = 0 ∧ destroyCount (onLine l) = 0) ∧
    (processLines ["\x7b\"a\":1\x7d", "not-json", "\x7b\"b\":2\x7d"] =
      [Effect.emit (Json.obj [("a", Json.num "1")]), Effect.statusSet "connected",
        Effect.warnLog "Invalid JSON from stream: not-json",
        Effect.emit (Json.obj [("b", Json.num "2")]), Effect.statusSet "connected"] ∧
      emitCount (processLines ["\x7b\"a\":1\x7d", "not-json", "\x7b\"b\":2\x7d"]) = 2 ∧
      warnCount (processLines ["\x7b\"a\":1\x7d", "not-json", "\x7b\"b\":2\x7d"]) = 1 ∧
      schedCount (processLines ["\x7b\"a\":1\x7d", "not-json", "\x7b\"b\":2\x7d"]) = 0) := by
  refine ⟨?_, ?_, ?_, ?_, rfl, rfl, rfl, rfl⟩
  · intro h; simp [onLine, h]
  · intro h1 h2; simp [onLine, h1, h2]
  · simp [processLines]
  · exact ⟨(onLine_no_control l).2.1, (onLine_no_control l).1, (onLine_no_control l).2.2.1⟩

theorem C6_witness :
    onLine " \t " = [] ∧
    onLine "not-json" = [Effect.warnLog ("Invalid JSON from stream: " ++ "not-json")] ∧
    processLines (["\x7b\"a\":1\x7d"] ++ "not-json" :: ["\x7b\"b\":2\x7d"]) =
      processLines ["\x7b\"a\":1\x7d"] ++ onLine "not-json" ++ processLines ["\x7b\"b\":2\x7d"] := by
  refine ⟨?_, ?_, ?_⟩
  · exact (C6_line_isolation [] [] " \t ").1 rfl
  · exact (C6_line_isolation [] [] "not-json").2.1 (by decide) rfl
  · exact (C6_line_isolation ["\x7b\"a\":1\x7d"] ["\x7b\"b\":2\x7d"] "not-json").2.2.1

/-- C8 counterexample: an extra-headers string that decodes to the
non-object value `42` produces NO warning in `src/stream-client.js` — the
parsed value is silently discarded and only the token header is kept,
contradicting the claim that a non-object decode result emits a warning
event. -/
theorem C8_counterexample :
    jsonParse "42" = some (Json.num "42") ∧
    assignPairs (Json.num "42") = none ∧
    buildHeaders (some "t") (some "42") =
      ([("Authorization", Json.str "Bearer t")], []) := by
  exact ⟨rfl, rfl, rfl⟩

/-- C8 (corrected): `buildHeaders` starts from the empty mapping, adds
`Authorization: Bearer <token>` for a non-empty token, never throws (it is
a total function), and on a `JSON.parse` failure warns and keeps only the
token-derived header; but a successfully parsed NON-OBJECT value is skipped
silently — only the `part_001` variant emits a warning in that case. -/
theorem C8_buildHeaders (tok : Option String) (hs : String) (t : String) :
    buildHeaders tok none = (tokenHeaders tok, []) ∧
    (hs ≠ "" → jsonParse hs = none →
      buildHeaders tok (some hs) =
        (tokenHeaders tok, ["Invalid headers JSON - skipping custom headers"])) ∧
    (∀ p, hs ≠ "" → jsonParse hs = some p → assignPairs p = none →
      buildHeaders tok (some hs) = (tokenHeaders tok, [])) ∧
    (∀ p, hs ≠ "" → jsonParse hs = some p → assignPairs p = none →
      (p1BuildHeaders tok (some hs)).2 =
        ["Invalid headers JSON: Must be an object. Skipping extra headers."]) ∧
    (tok = some t → t ≠ "" →
      tokenHeaders tok = [("Authorization", Json.str ("Bearer " ++ t))]) := by
  refine ⟨rfl, ?_, ?_, ?_, ?_⟩
  · intro h1 h2; simp [buildHeaders, h1, h2]
  · intro p h1 h2 h3; simp [buildHeaders, h1, h2, h3]
  · intro p h1 h2 h3; simp [p1BuildHeaders, h1, h2, h3]
  · intro h1 h2; simp [tokenHeaders, h1, h2]

theorem C8_witness :
    buildHeaders (some "t") (some "not-json") =
      (tokenHeaders (some "t"), ["Invalid headers JSON - skipping custom headers"]) ∧
    buildHeaders (some "t") (some "42") = (tokenHeaders (some "t"), []) ∧
    (p1BuildHeaders (some "t") (some "42")).2 =
      ["Invalid headers JSON: Must be an object. Skipping extra headers."] ∧
    tokenHeaders (some "t") = [("Authorization", Json.str ("Bearer " ++ "t"))] := by
  refine ⟨?_, ?_, ?_, ?_⟩
  · exact (C8_buildHeaders (some "t") "not-json" "t").2.1 (by decide) rfl
  · exact (C8_buildHeaders (some "t") "42" "t").2.2.1 (Json.num "42") (by decide) rfl rfl
  · exact (C8_buildHeaders (some "t") "42" "t").2.2.2.1 (Json.num "42") (by decide) rfl rfl
  · exact (C8_buildHeaders (some "t") "42" "t").2.2.2.2 rfl (by decide)

/-- C9 counterexample: in `src/stream-client.js` the configured value
`"100"` is used as a 100 ms delay (below any 1000 ms floor), and the
unparseable value `"abc"` yields `NaN` (not the claimed 5000 default) —
the primary variant neither applies a floor nor defaults on invalid
values. -/
theorem C9_counterexample :
    scDelay (some "100") = some 100 ∧ (100 : Int) < 1000 ∧
    scDelay (some "abc") = none := by
  exact ⟨rfl, by norm_num, rfl⟩

/-- C9 (corrected): the validated delay of the `part_001` variant is a
positive integer, at least the 1000 ms floor, and falls back to 5000 when
the configured value is absent/unparseable or below the floor; in
`src/stream-client.js` the 5000 default applies only to an absent or empty
configured value — any other string is used as `parseInt` leaves it, with
no floor and no fallback for `NaN`. -/
theorem C9_reconnect_delay (rd : Option String) :
    (1000 ≤ p1Delay rd ∧ 0 < p1Delay rd) ∧
    (p1DelayRaw rd = none → p1Delay rd = 5000) ∧
    (∀ d, p1DelayRaw rd = some d → d < 1000 → p1Delay rd = 5000) ∧
    scDelay none = some 5000 ∧ scDelay (some "") = some 5000 := by
  refine ⟨?_, ?_, ?_, rfl, rfl⟩
  · unfold p1Delay
    cases h : p1DelayRaw rd with
    | none => norm_num
    | some d =>
      by_cases hd : d < 1000
      · simp [hd]
      · simp [hd]; omega
  · intro h; simp [p1Delay, h]
  · intro d h1 h2; simp [p1Delay, h1, h2]

theorem C9_witness :
    (1000 ≤ p1Delay (some "abc") ∧ 0 < p1Delay (some "abc")) ∧
    p1Delay (some "abc") = 5000 ∧
    p1Delay (some "100") = 5000 := by
  refine ⟨(C9_reconnect_delay (some "abc")).1, ?_, ?_⟩
  · exact (C9_reconnect_delay (some "abc")).2.1 rfl
  · exact (C9_reconnect_delay (some "100")).2.2.1 100 rfl (by norm_num)

/-!
## Lemmas about the `part_003` backoff
-/

theorem p3Step_delay_bounds (s : P3State) (e : P3Event)
    (h1 : 2000 ≤ s.delay) (h2 : s.delay ≤ 60000) :
    2000 ≤ (p3Step s e).delay ∧ (p3Step s e).delay ≤ 60000 := by
  cases e <;> simp [p3Step] <;> omega

theorem p3RunFrom_delay_bounds :
    ∀ (tr : List P3Event) (s : P3State), 2000 ≤ s.delay → s.delay ≤ 60000 →
      2000 ≤ (p3RunFrom s tr).delay ∧ (p3RunFrom s tr).delay ≤ 60000 := by
  intro tr
  induction tr with
  | nil => intro s h1 h2; exact ⟨h1, h2⟩
  | cons e es ih =>
    intro s h1 h2
    obtain ⟨g1, g2⟩ := p3Step_delay_bounds s e h1 h2
    simpa [p3RunFrom] using ih (p3Step s e) g1 g2

theorem p3_noResponse_invariant :
    ∀ (tr : List P3Event) (s : P3State), P3Event.response ∉ tr →
      2000 ≤ s.delay → s.delay ≤ 60000 →
      List.Chain' (fun a b => a ≤ b) s.scheduled →
      (∀ x ∈ s.scheduled, x ≤ s.delay) →
      List.Chain' (fun a b => a ≤ b) (p3RunFrom s tr).scheduled ∧
        (∀ x ∈ (p3RunFrom s tr).scheduled, x ≤ (p3RunFrom s tr).delay) := by
  intro tr
  induction tr with
  | nil => intro s _ _ _ hc hle; exact ⟨hc, hle⟩
  | cons e es ih =>
    intro s hnr h1 h2 hc hle
    have hnr' : P3Event.response ∉ es := fun h => hnr (List.mem_cons_of_mem _ h)
    have hne : e ≠ P3Event.response := fun h => hnr (h ▸ List.mem_cons_self _ _)
    obtain ⟨g1, g2⟩ := p3Step_delay_bounds s e h1 h2
    have key : List.Chain' (fun a b => a ≤ b) (p3Step s e).scheduled ∧
        (∀ x ∈ (p3Step s e).scheduled, x ≤ (p3Step s e).delay) := by
      cases e with
      | fail =>
        constructor
        · simp only [p3Step]
          rw [List.chain'_append]
          refine ⟨hc, List.chain'_singleton _, ?_⟩
          intro x hx y hy
          simp only [List.head?_cons, Option.mem_def, Option.some.injEq] at hy
          subst hy
          exact hle x (List.mem_of_mem_getLast? hx)
        · intro x hx
          simp only [p3Step, List.mem_append, List.mem_singleton] at hx
          rcases hx with hx | hx
          · exact hle x hx
          · simp [p3Step, hx]
      | fire =>
        refine ⟨by simpa [p3Step] using hc, ?_⟩
        intro x hx
        simp only [p3Step] at hx ⊢
        have := hle x hx
        omega
      | response => exact absurd rfl hne
      | data n =>
        refine ⟨by simpa [p3Step] using hc, ?_⟩
        intro x hx
        simp only [p3Step] at hx ⊢
        exact hle x hx
    simpa [p3RunFrom] using ih (p3Step s e) hnr' g1 g2 key.1 key.2

/-- C2 counterexample: after two failed attempts the `part_003` delay has
grown to 8000 ms; a `response` event then resets it to the base 2000 ms
although zero records were delivered by the attempt — the reset happens on
receipt of any HTTP response, not (as claimed) only after at least one
successful data handoff. -/
theorem C2_counterexample :
    (p3Run [P3Event.fail, P3Event.fire, P3Event.fail, P3Event.fire]).delay = 8000 ∧
    (p3Run [P3Event.fail, P3Event.fire, P3Event.fail, P3Event.fire]).attemptRecords = 0 ∧
    (p3RunFrom (p3Run [P3Event.fail, P3Event.fire, P3Event.fail, P3Event.fire])
      [P3Event.response]).delay = 2000 ∧
    (p3RunFrom (p3Run [P3Event.fail, P3Event.fire, P3Event.fail, P3Event.fire])
      [P3Event.response]).attemptRecords = 0 := by
  exact ⟨rfl, rfl, rfl, rfl⟩

/-- C2 (corrected): the `part_003` backoff delay always stays within
[2000, 60000] (base and max); across any response-free run — i.e. any
sequence of consecutive failed attempts — the delays actually used for
scheduling are monotonically non-decreasing; and the delay is reset to the
base 2000 ms on receipt of ANY response (even one that delivers no
record), not only after an attempt with at least one data handoff. -/
theorem C2_backoff (tr seg : List P3Event) (d : Nat) :
    (2000 ≤ (p3Run tr).delay ∧ (p3Run tr).delay ≤ 60000) ∧
    (2000 ≤ d → d ≤ 60000 → P3Event.response ∉ seg →
      List.Chain' (fun a b => a ≤ b)
        (p3RunFrom { delay := d, attemptRecords := 0, scheduled := [] } seg).scheduled) ∧
    (p3Step (p3Run tr) P3Event.response).delay = 2000 := by
  refine ⟨?_, ?_, rfl⟩
  · exact p3RunFrom_delay_bounds tr p3Init (by simp [p3Init]) (by simp [p3Init])
  · intro h1 h2 hnr
    exact (p3_noResponse_invariant seg _ hnr h1 h2 (List.chain'_nil) (by simp)).1

theorem C2_witness :
    (2000 ≤ (p3Run [P3Event.fail, P3Event.fire, P3Event.fail]).delay ∧
      (p3Run [P3Event.fail, P3Event.fire, P3Event.fail]).delay ≤ 60000) ∧
    List.Chain' (fun a b => a ≤ b)
      (p3RunFrom { delay := 4000, attemptRecords := 0, scheduled := [] }
        [P3Event.fail, P3Event.fire, P3Event.fail, P3Event.fire, P3Event.fail]).scheduled := by
  refine ⟨(C2_backoff [P3Event.fail, P3Event.fire, P3Event.fail] [] 0).1, ?_⟩
  exact (C2_backoff [] [P3Event.fail, P3Event.fire, P3Event.fail, P3Event.fire, P3Event.fail]
    4000).2.1 (by norm_num) (by norm_num) (by decide)

/-!
## Lemmas about the URL / query-string model
-/

theorem decodeQS_cons_other (b : Nat) (r : JStr) (h43 : b ≠ 43) (h37 : b ≠ 37) :
    decodeQS (b :: r) = b :: decodeQS r := by
  rw [decodeQS.eq_def]
  split <;> simp_all

theorem splitAmp_ne_nil (xs : JStr) : splitAmp xs ≠ [] := by
  induction xs with
  | nil => simp [splitAmp]
  | cons b r ih =>
    simp only [splitAmp]
    split
    · simp
    · cases h : splitAmp r with
      | nil => exact absurd h ih
      | cons s ss => simp

theorem splitAmp_append (a b : JStr) :
    splitAmp (a ++ 38 :: b) = splitAmp a ++ splitAmp b := by
  induction a with
  | nil => simp [splitAmp]
  | cons x r ih =>
    by_cases hx : x = 38
    · subst hx
      simp only [List.cons_append]
      rw [show splitAmp (38 :: (r ++ 38 :: b)) = [] :: splitAmp (r ++ 38 :: b) from rfl,
        show splitAmp (38 :: r) = [] :: splitAmp r from rfl, ih]
      rfl
    · obtain ⟨s0, ss0, hs⟩ : ∃ s0 ss0, splitAmp r = s0 :: ss0 := by
        cases h : splitAmp r with
        | nil => exact absurd h (splitAmp_ne_nil r)
        | cons s0 ss0 => exact ⟨s0, ss0, rfl⟩
      simp only [List.cons_append, splitAmp, if_neg hx, List.append_eq, ih, hs]

theorem splitAmp_no_sep (xs : JStr) (h : ∀ b ∈ xs, b ≠ 38) : splitAmp xs = [xs] := by
  induction xs with
  | nil => rfl
  | cons x r ih =>
    have hx : x ≠ 38 := h x (List.mem_cons_self x r)
    have hr : ∀ b ∈ r, b ≠ 38 := fun b hb => h b (List.mem_cons_of_mem _ hb)
    simp only [splitAmp, if_neg hx, ih hr]

theorem splitAmp_mem (xs : JStr) : ∀ seg ∈ splitAmp xs, ∀ b ∈ seg, b ∈ xs := by
  induction xs with
  | nil =>
    intro seg hseg b hb
    simp [splitAmp] at hseg
    subst hseg
    simp at hb
  | cons x r ih =>
    intro seg hseg b hb
    simp only [splitAmp] at hseg
    split at hseg
    · rcases List.mem_cons.mp hseg with h | h
      · subst h; simp at hb
      · exact List.mem_cons_of_mem _ (ih seg h b hb)
    · cases hs : splitAmp r with
      | nil => exact absurd hs (splitAmp_ne_nil r)
      | cons s0 ss0 =>
        rw [hs] at hseg
        rcases List.mem_cons.mp hseg with h | h
        · subst h
          rcases List.mem_cons.mp hb with h | h
          · exact h ▸ List.mem_cons_self x r
          · exact List.mem_cons_of_mem _ (ih s0 (hs ▸ List.mem_cons_self s0 ss0) b h)
        · exact List.mem_cons_of_mem _ (ih seg (hs ▸ List.mem_cons_of_mem _ h) b hb)

theorem splitEqB_append (n v : JStr) (h : ∀ b ∈ n, b ≠ 61) :
    splitEqB (n ++ 61 :: v) = (n, v) := by
  induction n with
  | nil => simp [splitEqB]
  | cons x r ih =>
    have hx : x ≠ 61 := h x (List.mem_cons_self x r)
    have hr : ∀ b ∈ r, b ≠ 61 := fun b hb => h b (List.mem_cons_of_mem _ hb)
    simp only [List.cons_append, splitEqB, if_neg hx, List.append_eq, ih hr]

theorem splitEqB_mem (xs : JStr) :
    (∀ b ∈ (splitEqB xs).1, b ∈ xs) ∧ (∀ b ∈ (splitEqB xs).2, b ∈ xs) := by
  induction xs with
  | nil => simp [splitEqB]
  | cons x r ih =>
    simp only [splitEqB]
    split
    · constructor
      · intro b hb; simp at hb
      · intro b hb; exact List.mem_cons_of_mem _ hb
    · constructor
      · intro b hb
        rcases List.mem_cons.mp hb with h | h
        · exact h ▸ List.mem_cons_self x r
        · exact List.mem_cons_of_mem _ (ih.1 b h)
      · intro b hb
        exact List.mem_cons_of_mem _ (ih.2 b hb)

theorem hexVal_hexDig (x : Nat) (h : x < 16) : hexVal (hexDig x) = some x := by
  interval_cases x <;> rfl

theorem hexVal_lt_16 (b x : Nat) (h : hexVal b = some x) : x < 16 := by
  unfold hexVal at h
  split_ifs at h <;> simp_all <;> omega

theorem encByte_mem_ne (b : Nat) : ∀ c ∈ encByte b, c ≠ 38 ∧ c ≠ 61 ∧ c ≠ 35 := by
  intro c hc
  unfold encByte at hc
  split at hc
  · simp at hc
    omega
  · split at hc
    · rename_i h32 hun
      simp at hc
      subst hc
      unfold isUnreservedB at hun
      simp only [Bool.or_eq_true, decide_eq_true_eq, Bool.and_eq_true] at hun
      omega
    · simp only [List.mem_cons, List.not_mem_nil, or_false] at hc
      rcases hc with rfl | rfl | rfl
      · omega
      · unfold hexDig
        split <;> omega
      · unfold hexDig
        split <;> omega

theorem decodeQS_encByte (b : Nat) (hb : b < 256) (r : JStr) :
    decodeQS (encByte b ++ r) = b :: decodeQS r := by
  unfold encByte
  split
  · rename_i h32
    subst h32
    simp [decodeQS]
  · split
    · rename_i h32 hun
      have hb43 : b ≠ 43 := by
        unfold isUnreservedB at hun
        simp only [Bool.or_eq_true, decide_eq_true_eq, Bool.and_eq_true] at hun
        omega
      have hb37 : b ≠ 37 := by
        unfold isUnreservedB at hun
        simp only [Bool.or_eq_true, decide_eq_true_eq, Bool.and_eq_true] at hun
        omega
      simpa using decodeQS_cons_other b r hb43 hb37
    · have h1 : hexVal (hexDig (b / 16)) = some (b / 16) := hexVal_hexDig _ (by omega)
      have h2 : hexVal (hexDig (b % 16)) = some (b % 16) := hexVal_hexDig _ (by omega)
      simp only [List.cons_append, List.nil_append, decodeQS, h1, h2]
      congr 1
      omega

theorem decodeQS_encBytes (xs : JStr) (h : ValidBytes xs) :
    decodeQS (encBytes xs) = xs := by
  induction xs with
  | nil => rfl
  | cons b r ih =>
    have hb : b < 256 := h b (List.mem_cons_self b r)
    have hr : ValidBytes r := fun x hx => h x (List.mem_cons_of_mem _ hx)
    show decodeQS (encByte b ++ encBytes r) = b :: r
    rw [decodeQS_encByte b hb, ih hr]

theorem encBytes_mem_ne (xs : JStr) : ∀ c ∈ encBytes xs, c ≠ 38 ∧ c ≠ 61 ∧ c ≠ 35 := by
  induction xs with
  | nil => simp [encBytes]
  | cons b r ih =>
    intro c hc
    have : c ∈ encByte b ++ encBytes r := hc
    rcases List.mem_append.mp this with h | h
    · exact encByte_mem_ne b c h
    · exact ih c h

theorem serializePair_mem_ne (p : JStr × JStr) :
    ∀ c ∈ serializePair p, c ≠ 38 ∧ c ≠ 35 := by
  intro c hc
  unfold serializePair at hc
  rcases List.mem_append.mp hc with h | h
  · exact ⟨(encBytes_mem_ne p.1 c h).1, (encBytes_mem_ne p.1 c h).2.2⟩
  · rcases List.mem_cons.mp h with rfl | h
    · omega
    · exact ⟨(encBytes_mem_ne p.2 c h).1, (encBytes_mem_ne p.2 c h).2.2⟩

theorem serializePair_ne_nil (p : JStr × JStr) : serializePair p ≠ [] := by
  unfold serializePair
  intro h
  exact absurd (congrArg List.length h) (by simp)

theorem serializeQS_mem_ne_hash (ps : List (JStr × JStr)) :
    ∀ c ∈ serializeQS ps, c ≠ 35 := by
  induction ps with
  | nil => simp [serializeQS]
  | cons p rest ih =>
    intro c hc
    cases rest with
    | nil => exact (serializePair_mem_ne p c hc).2
    | cons q rest2 =>
      rw [show serializeQS (p :: q :: rest2) =
          serializePair p ++ 38 :: serializeQS (q :: rest2) from rfl] at hc
      rcases List.mem_append.mp hc with h | h
      · exact (serializePair_mem_ne p c h).2
      · rcases List.mem_cons.mp h with rfl | h
        · omega
        · exact ih c h

theorem parseQS_nil : parseQS [] = [] := rfl

theorem parseQS_append (a b : JStr) : parseQS (a ++ 38 :: b) = parseQS a ++ parseQS b := by
  unfold parseQS
  rw [splitAmp_append, List.filterMap_append]

theorem parseQS_serializePair (p : JStr × JStr) (h1 : ValidBytes p.1) (h2 : ValidBytes p.2) :
    parseQS (serializePair p) = [p] := by
  unfold parseQS
  rw [splitAmp_no_sep _ (fun c hc => (serializePair_mem_ne p c hc).1)]
  rw [List.filterMap_cons, List.filterMap_nil]
  rw [if_neg (serializePair_ne_nil p)]
  unfold serializePair
  rw [splitEqB_append _ _ (fun c hc => (encBytes_mem_ne p.1 c hc).2.1)]
  simp only [decodeQS_encBytes _ h1, decodeQS_encBytes _ h2]

theorem parseQS_serializeQS (ps : List (JStr × JStr))
    (h : ∀ p ∈ ps, ValidBytes p.1 ∧ ValidBytes p.2) :
    parseQS (serializeQS ps) = ps := by
  induction ps with
  | nil => rfl
  | cons p rest ih =>
    cases rest with
    | nil =>
      have hp := h p (List.mem_cons_self p [])
      simpa [serializeQS] using parseQS_serializePair p hp.1 hp.2
    | cons q rest2 =>
      have hp := h p (List.mem_cons_self p (q :: rest2))
      have hrest : ∀ r ∈ q :: rest2, ValidBytes r.1 ∧ ValidBytes r.2 :=
        fun r hr => h r (List.mem_cons_of_mem _ hr)
      rw [show serializeQS (p :: q :: rest2) =
          serializePair p ++ 38 :: serializeQS (q :: rest2) from rfl]
      rw [parseQS_append, parseQS_serializePair p hp.1 hp.2, ih hrest]
      rfl

theorem decodeQS_cons_ne (b0 : Nat) (rest : JStr) (h43 : b0 = 43 → False)
    (h37 : ∀ (u v : Nat) (r2 : List Nat), b0 = 37 → rest = u :: v :: r2 → False) :
    decodeQS (b0 :: rest) = b0 :: decodeQS rest := by
  rw [decodeQS.eq_def]
  split
  · simp_all
  · simp_all
  · rename_i u v r2 heq
    rw [List.cons_eq_cons] at heq
    exact (h37 u v r2 heq.1 heq.2).elim
  · rename_i b1 rest1 heq
    rw [List.cons_eq_cons] at heq
    rw [heq.1, heq.2]

theorem decodeQS_valid (xs : JStr) (h : ValidBytes xs) : ValidBytes (decodeQS xs) := by
  induction xs using decodeQS.induct with
  | case1 => intro b hb; simp [decodeQS] at hb
  | case2 rest ih =>
    intro b hb
    rw [show decodeQS (43 :: rest) = 32 :: decodeQS rest from rfl] at hb
    rcases List.mem_cons.mp hb with rfl | hb
    · omega
    · exact ih (fun x hx => h x (List.mem_cons_of_mem _ hx)) b hb
  | case3 h1 h2 r2 x y hx hy ih =>
    intro b hb
    rw [decodeQS.eq_def] at hb
    simp only [hx, hy] at hb
    rcases List.mem_cons.mp hb with rfl | hb
    · have e1 := hexVal_lt_16 h1 x hy
      have e2 := hexVal_lt_16 h2 y hx
      omega
    · refine ih (fun c hc => h c ?_) b hb
      simp [List.mem_cons] at hc ⊢
      tauto
  | case4 h1 h2 r2 hxy ih =>
    intro b hb
    rw [show decodeQS (37 :: h1 :: h2 :: r2) =
        (match hexVal h1, hexVal h2 with
          | some x, some y => (x * 16 + y) :: decodeQS r2
          | _, _ => 37 :: decodeQS (h1 :: h2 :: r2)) from rfl] at hb
    cases hh1 : hexVal h1 with
    | some x =>
      cases hh2 : hexVal h2 with
      | some y => exact (hxy x y hh1 hh2).elim
      | none =>
        simp only [hh1, hh2] at hb
        rcases List.mem_cons.mp hb with rfl | hb
        · omega
        · exact ih (fun c hc => h c (List.mem_cons_of_mem _ hc)) b hb
    | none =>
      simp only [hh1] at hb
      rcases List.mem_cons.mp hb with rfl | hb
      · omega
      · exact ih (fun c hc => h c (List.mem_cons_of_mem _ hc)) b hb
  | case5 b0 rest h43 h37 ih =>
    intro b hb
    rw [decodeQS_cons_ne b0 rest h43 h37] at hb
    rcases List.mem_cons.mp hb with rfl | hb
    · exact h b (List.mem_cons_self b rest)
    · exact ih (fun x hx => h x (List.mem_cons_of_mem _ hx)) b hb

theorem parseQS_valid (q : JStr) (h : ValidBytes q) :
    ∀ p ∈ parseQS q, ValidBytes p.1 ∧ ValidBytes p.2 := by
  intro p hp
  unfold parseQS at hp
  rcases List.mem_filterMap.mp hp with ⟨seg, hseg, hp2⟩
  by_cases hnil : seg = []
  · simp [hnil] at hp2
  · rw [if_neg hnil, Option.some.injEq] at hp2
    have hsegv : ValidBytes seg := fun b hb => h b (splitAmp_mem q seg hseg b hb)
    have hn : ValidBytes (splitEqB seg).1 := fun b hb => hsegv b ((splitEqB_mem seg).1 b hb)
    have hv : ValidBytes (splitEqB seg).2 := fun b hb => hsegv b ((splitEqB_mem seg).2 b hb)
    rw [← hp2]
    exact ⟨decodeQS_valid _ hn, decodeQS_valid _ hv⟩

theorem afterQuestion_append_not_mem (u v : JStr) (h : 63 ∉ u) :
    afterQuestion (u ++ v) = afterQuestion v := by
  induction u with
  | nil => rfl
  | cons x r ih =>
    have hx : ¬x = 63 := fun e => h (e ▸ List.mem_cons_self x r)
    have hr : 63 ∉ r := fun e => h (List.mem_cons_of_mem _ e)
    simp only [List.cons_append, afterQuestion, if_neg hx, List.append_eq, ih hr]

theorem afterQuestion_nil_of_not_mem (u : JStr) (h : 63 ∉ u) : afterQuestion u = [] := by
  have := afterQuestion_append_not_mem u [] h
  rwa [List.append_nil] at this

theorem afterQuestion_append_mem (u v : JStr) (h : 63 ∈ u) :
    afterQuestion (u ++ v) = afterQuestion u ++ v := by
  induction u with
  | nil => cases h
  | cons x r ih =>
    by_cases hx : x = 63
    · subst hx
      simp [afterQuestion]
    · have hr : 63 ∈ r := by
        rcases List.mem_cons.mp h with e | e
        · exact absurd e.symm hx
        · exact e
      simp only [List.cons_append, afterQuestion, if_neg hx, List.append_eq, ih hr]

theorem beforeHash_eq_self (u : JStr) (h : ∀ b ∈ u, b ≠ 35) : beforeHash u = u := by
  unfold beforeHash
  induction u with
  | nil => rfl
  | cons x r ih =>
    have hx : x ≠ 35 := h x (List.mem_cons_self x r)
    have hr : ∀ b ∈ r, b ≠ 35 := fun b hb => h b (List.mem_cons_of_mem _ hb)
    simp only [List.takeWhile_cons, decide_eq_true_eq, hx, if_pos, ih hr]
    simp [hx, ih hr]

/-- C7 counterexample: with the valid absolute URL `http://h/p#f` (which
contains a fragment) and configured query `a=1`, `buildUrl` appends
`?a=1` after the fragment, producing `http://h/p#f?a=1` — a URL whose query
component is empty (everything after `#` is fragment), so the configured
key `a` is lost: the resulting URL's query keys are not a superset of the
configured extra keys. -/
theorem C7_counterexample :
    (buildUrl (some (strB "http://h/p#f")) (some (strB "a=1"))).1 =
      some (strB "http://h/p#f?a=1") ∧
    (parseQS (strB "a=1")).map Prod.fst = [strB "a"] ∧
    qKeys (strB "http://h/p#f?a=1") = [] := by
  exact ⟨rfl, rfl, rfl⟩

/-- C7 (corrected): for every configuration whose trimmed base URL is
non-blank and fragment-free (no `#` — with a fragment, appended parameters
land in the fragment and are lost), `buildUrl` trims the base URL and
appends the form-encoded configured parameters after `?` or `&`, and the
resulting URL's query keys are exactly the base URL's original query keys
followed by the configured extra keys: a superset of both, duplicates
retained, base-URL parameters first, nothing lost. -/
theorem C7_query_superset (urlConf query : JStr) (hq : ValidBytes query)
    (hne : jsTrimB urlConf ≠ []) (hnh : 35 ∉ jsTrimB urlConf) :
    (buildUrl (some urlConf) (some query)).1 =
      some (appendParams (jsTrimB urlConf) query) ∧
    qKeys (appendParams (jsTrimB urlConf) query) =
      qKeys (jsTrimB urlConf) ++ (parseQS query).map Prod.fst := by
  constructor
  · unfold buildUrl
    simp [hne]
  · unfold appendParams
    by_cases hps : parseQS query = []
    · simp [hps]
    · rw [if_neg hps]
      have hval := parseQS_valid query hq
      have hser := parseQS_serializeQS (parseQS query) hval
      have hser35 : ∀ b ∈ serializeQS (parseQS query), b ≠ 35 := serializeQS_mem_ne_hash _
      have hu35 : ∀ b ∈ jsTrimB urlConf, b ≠ 35 := fun b hb e => hnh (e ▸ hb)
      have hbu : beforeHash (jsTrimB urlConf) = jsTrimB urlConf := beforeHash_eq_self _ hu35
      by_cases hc : 63 ∈ jsTrimB urlConf
      · have hcontains : (jsTrimB urlConf).contains 63 = true := by
          simpa using hc
        rw [hcontains, if_pos rfl]
        unfold qKeys queryComp
        simp only [List.append_assoc, List.singleton_append]
        have h35all : ∀ b ∈ jsTrimB urlConf ++ 38 :: serializeQS (parseQS query), b ≠ 35 := by
          intro b hb
          rcases List.mem_append.mp hb with h | h
          · exact hu35 b h
          · rcases List.mem_cons.mp h with rfl | h
            · omega
            · exact hser35 b h
        rw [beforeHash_eq_self _ h35all, afterQuestion_append_mem _ _ hc,
          parseQS_append, hser, hbu, List.map_append]
      · have hcontains : (jsTrimB urlConf).contains 63 = false := by
          simp only [List.contains, Bool.eq_false_iff]
          intro he
          exact hc (List.elem_iff.mp he)
        rw [hcontains]
        simp only [Bool.false_eq_true, if_false]
        unfold qKeys queryComp
        simp only [List.append_assoc, List.singleton_append]
        have h35all : ∀ b ∈ jsTrimB urlConf ++ 63 :: serializeQS (parseQS query), b ≠ 35 := by
          intro b hb
          rcases List.mem_append.mp hb with h | h
          · exact hu35 b h
          · rcases List.mem_cons.mp h with rfl | h
            · omega
            · exact hser35 b h
        rw [beforeHash_eq_self _ h35all, afterQuestion_append_not_mem _ _ hc, hbu,
          afterQuestion_nil_of_not_mem _ hc]
        rw [show afterQuestion (63 :: serializeQS (parseQS query)) =
            serializeQS (parseQS query) from rfl]
        rw [hser]
        rfl

theorem C7_witness :
    ValidBytes (strB "a=1") ∧ jsTrimB (strB " http://h/s?x=0 ") ≠ [] ∧
      35 ∉ jsTrimB (strB " http://h/s?x=0 ") ∧
    (buildUrl (some (strB " http://h/s?x=0 ")) (some (strB "a=1"))).1 =
      some (appendParams (jsTrimB (strB " http://h/s?x=0 ")) (strB "a=1")) ∧
    qKeys (appendParams (jsTrimB (strB " http://h/s?x=0 ")) (strB "a=1")) =
      qKeys (jsTrimB (strB " http://h/s?x=0 ")) ++
        (parseQS (strB "a=1")).map Prod.fst := by
  refine ⟨by decide, by decide, by decide, ?_, ?_⟩
  · exact (C7_query_superset (strB " http://h/s?x=0 ") (strB "a=1")
      (by decide) (by decide) (by decide)).1
  · exact (C7_query_superset (strB " http://h/s?x=0 ") (strB "a=1")
      (by decide) (by decide) (by decide)).2
